import Mathlib

/-!
Verification of the layer module of the `hogum/ML` repository
(`mlearning/helpers/deep_learning/layers.py`) against its natural-language
specification.

The Python code is shallowly embedded: numpy arrays become total functions
from indices to scalars, stateful layer objects become explicit state
records with state-passing functions, and operations that raise Python
exceptions return `Option`.  The index arithmetic of the im2col/col2im
machinery is pure integer arithmetic and is translated verbatim.  Scalar
entries (Python floats) are modelled by exact arithmetic: `ℤ` for the
convolution/reshape machinery, whose operations are only addition and
multiplication and whose concrete spec scenarios are integer-valued, and
`ℚ`/`ℝ` where the source divides (dropout scaling, batch normalization,
weight-initialization bounds).
-/

namespace MLSpec

/-- A rank-4 numpy array `(batch, channels, height, width)`, as a total
function on indices.  Entries outside the array's extent are irrelevant to
every theorem below, which always constrains the indices. -/
abbrev Tensor4 := ℕ → ℕ → ℕ → ℕ → ℤ

/-- A rank-2 numpy array, as a total function on indices. -/
abbrev Mat := ℕ → ℕ → ℤ

/-- Python `int(q)`: truncation toward zero of a real (here rational)
number, as applied by the source to the float result of
`(height + np.sum(pad_h) - fltr_height) / stride + 1`. -/
def pyInt (q : ℚ) : ℤ := if 0 ≤ q then ⌊q⌋ else ⌈q⌉

/-- `Layer.get_padding` (layers.py:75-93).  For `output_shape=True`
("same" padding) each axis gets `(floor((f-1)/2), ceil((f-1)/2))`;
otherwise no padding.  For a filter extent `f ≥ 1`,
`floor((f-1)/2) = (f-1)/2` and `ceil((f-1)/2) = f/2` in `ℕ` arithmetic. -/
def getPadding (fh fw : ℕ) (samePad : Bool) : (ℕ × ℕ) × (ℕ × ℕ) :=
  if samePad then (((fh - 1) / 2, fh / 2), ((fw - 1) / 2, fw / 2))
  else ((0, 0), (0, 0))

/-- The output spatial size `int((in + sum(pad) - f) / stride + 1)` computed
(identically) by `Layer.get_img_cols_indices` (layers.py:132-133) and
`ConvolutionTwoD.output_shape` (layers.py:275-278).  The source performs
exact float division and `int()` truncation toward zero and raises no
error; since `(d/s) + 1 = (d+s)/s` exactly, this is the `ℤ` truncating
division `(in + sum(pad) - f + stride).tdiv stride` (`Int.tdiv` truncates
toward zero exactly like Python's `int()`); `outSpatialSize_eq_pyInt`
below verifies the agreement with the literal `int(... / stride + 1)`
reading. -/
def outSpatialSize (inSize p0 p1 f stride : ℕ) : ℤ :=
  ((inSize : ℤ) + p0 + p1 - f + stride).tdiv stride

/-- Row `r` of the channel index array `ind_k` of
`Layer.get_img_cols_indices` (layers.py:144-145):
`np.repeat(np.arange(channels), fltr_height * fltr_width)`. -/
def indK (fh fw r : ℕ) : ℕ := r / (fh * fw)

/-- Entry `(r, c)` of the row index array `ind_i` of
`Layer.get_img_cols_indices` (layers.py:135-141):
`ind_i0.reshape(-1,1) + ind_i1.reshape(1,-1)` with
`ind_i0 = tile(repeat(arange(fh), fw), channels)` and
`ind_i1 = stride * repeat(arange(out_h), out_w)`. -/
def indI (fh fw stride outW r c : ℕ) : ℕ :=
  r % (fh * fw) / fw + stride * (c / outW)

/-- Entry `(r, c)` of the column index array `ind_j` of
`Layer.get_img_cols_indices` (layers.py:139-142):
`ind_j0 = tile(arange(fw), fh * channels)` and
`ind_j1 = stride * tile(arange(out_w), out_h)`. -/
def indJ (fw stride outW r c : ℕ) : ℕ :=
  r % fw + stride * (c % outW)

/-- `np.pad(images, ((0,0),(0,0),pad_h,pad_w), mode='constant')`
(layers.py:104-105): the zero-padded image. -/
def padZero (ph0 pw0 H W : ℕ) (X : Tensor4) : Tensor4 := fun b c i j =>
  if ph0 ≤ i ∧ i < H + ph0 ∧ pw0 ≤ j ∧ j < W + pw0 then
    X b c (i - ph0) (j - pw0)
  else 0

/-- `Layer.reshape_image_to_col` (layers.py:95-119).  The returned matrix
has extent `(channels * fh * fw, out_h * out_w * batch)`; entry `(r, q)`
with `q = c * batch + b` is the padded image gathered at the fancy indices
`(b, ind_k r, ind_i r c, ind_j r c)`, matching
`cols.transpose(1, 2, 0).reshape(fh * fw * channels, -1)`. -/
def imageToCol (B chans H W fh fw stride : ℕ) (samePad : Bool)
    (X : Tensor4) : Mat :=
  fun r q =>
    let pads := getPadding fh fw samePad
    let outW := (outSpatialSize W pads.2.1 pads.2.2 fw stride).toNat
    padZero pads.1.1 pads.2.1 H W X (q % B) (indK fh fw r)
      (indI fh fw stride outW r (q / B)) (indJ fw stride outW r (q / B))

/-- `Layer.reshape_col_to_image` (layers.py:43-73).  The source allocates
the padded accumulator with `np.empty` — an UNINITIALIZED buffer — and then
`np.add.at` adds every window contribution into it; `init` models the
arbitrary pre-existing contents of that buffer (the intended behaviour,
and the accumulation the spec describes, corresponds to `init = 0`,
i.e. `np.zeros`).  `cols` has extent
`(channels * fh * fw, out_h * out_w * batch)`; entry `(r, cc*B+b)` is
added at padded position `(b, ind_k r, ind_i r cc, ind_j r cc)`, and the
padding border is then stripped. -/
def colToImage (init : Tensor4) (B chans H W fh fw stride : ℕ)
    (samePad : Bool) (cols : Mat) : Tensor4 :=
  fun b c i j =>
    let pads := getPadding fh fw samePad
    let outH := (outSpatialSize H pads.1.1 pads.1.2 fh stride).toNat
    let outW := (outSpatialSize W pads.2.1 pads.2.2 fw stride).toNat
    init b c (i + pads.1.1) (j + pads.2.1) +
      ∑ r ∈ Finset.range (chans * (fh * fw)),
        ∑ cc ∈ Finset.range (outH * outW),
          if indK fh fw r = c ∧
             indI fh fw stride outW r cc = i + pads.1.1 ∧
             indJ fw stride outW r cc = j + pads.2.1 then
            cols r (cc * B + b)
          else 0

/-- A rank-1 numpy array over `ℤ`. -/
abbrev Vec := ℕ → ℤ

/-- The mutable state of a `ConvolutionTwoD` layer (layers.py:150-286):
constructor hyperparameters, the parameter tensors bound by
`init_weights`, and the values cached by `forward_pass` for the paired
`backward_pass` (`input_layer` plus its shape, `X_col`, `W_col`).
`weight_` has extent `(no_of_filters, channels, fh, fw)`; `weight_out`
has extent `(no_of_filters, 1)` and is modelled with its single column. -/
structure ConvState where
  no_of_filters : ℕ
  fh : ℕ
  fw : ℕ
  stride : ℕ
  padding : Bool
  trainable : Bool
  weight_ : Tensor4
  weight_out : Vec
  input_layer : Tensor4
  inputShape : ℕ × ℕ × ℕ × ℕ
  X_col : Mat
  W_col : Mat

/-- `self.weight_.reshape((self.no_of_filters, -1))` (layers.py:219):
row-major flattening of the `(chans, fh, fw)` trailing axes. -/
def convReshapeW (fh fw : ℕ) (w : Tensor4) : Mat :=
  fun f k => w f (k / (fh * fw)) (k % (fh * fw) / fw) (k % fw)

/-- `ConvolutionTwoD.forward_pass` (layers.py:203-226) on an input of
extent `(B, chans, H, W)`: caches `input_layer`, `X_col` and `W_col` in
the state, computes `W_col.dot(X_col) + weight_out`, reshapes the result
to `(no_of_filters, out_h, out_w, batch)` and transposes batch first, so
the returned tensor is indexed `(b, f, i, j)` and the flat column index is
`(i * out_w + j) * B + b`. -/
def convForward (s : ConvState) (B chans H W : ℕ) (X : Tensor4) :
    ConvState × Tensor4 :=
  let Xcol := imageToCol B chans H W s.fh s.fw s.stride s.padding X
  let Wcol := convReshapeW s.fh s.fw s.weight_
  let pads := getPadding s.fh s.fw s.padding
  let outW := (outSpatialSize W pads.2.1 pads.2.2 s.fw s.stride).toNat
  let out : Tensor4 := fun b f i j =>
    (∑ k ∈ Finset.range (chans * (s.fh * s.fw)),
      Wcol f k * Xcol k ((i * outW + j) * B + b)) + s.weight_out f
  ({ s with
      input_layer := X
      inputShape := (B, chans, H, W)
      X_col := Xcol
      W_col := Wcol },
    out)

/-- `ConvolutionTwoD.output_shape` (layers.py:268-279):
`(no_of_filters, int(out_h), int(out_w))` from the layer's `input_shape`
`(chans, H, W)`; combined with the batch-first transpose of
`forward_pass`, the full output extent is `(B,) + output_shape`. -/
def convOutputShape (F fh fw stride H W : ℕ) (padding : Bool) :
    ℕ × ℤ × ℤ :=
  let pads := getPadding fh fw padding
  (F, outSpatialSize H pads.1.1 pads.1.2 fh stride,
    outSpatialSize W pads.2.1 pads.2.2 fw stride)

/-- The first step of `ConvolutionTwoD.backward_pass` (layers.py:239-240):
`grad.transpose(1, 2, 3, 0).reshape(self.no_of_filters, -1)`, mapping an
output-shaped gradient `(B, F, out_h, out_w)` to column form with flat
column index `(i * out_w + j) * B + b`. -/
def convGradToCol (fh fw stride : ℕ) (padding : Bool) (B W : ℕ)
    (grad : Tensor4) : Mat :=
  let pads := getPadding fh fw padding
  let outW := (outSpatialSize W pads.2.1 pads.2.2 fw stride).toNat
  fun f q => grad (q % B) f (q / B / outW) (q / B % outW)

/-- `ConvolutionTwoD.backward_pass` (layers.py:228-266).  `grad` has the
output extent `(B, F, out_h, out_w)` and is reshaped to the column form
`acc`.  When trainable, the weight gradients are computed and the
parameters are replaced through the injected optimizer update functions
`updW`/`updWout` (the spec's optimizer interface returns a new parameter
tensor).  The gradient handed to the previous layer is `W_col.T.dot(acc)`
— using the `W_col` cached by the paired `forward_pass`, not the
just-updated weights — pushed back to image form by
`reshape_col_to_image` (whose `np.empty` accumulator is modelled by
`init`, see `colToImage`). -/
def convBackward (init : Tensor4) (updW : Tensor4 → Tensor4 → Tensor4)
    (updWout : Vec → Vec → Vec) (s : ConvState) (grad : Tensor4) :
    ConvState × Tensor4 :=
  let B := s.inputShape.1
  let chans := s.inputShape.2.1
  let H := s.inputShape.2.2.1
  let W := s.inputShape.2.2.2
  let pads := getPadding s.fh s.fw s.padding
  let outH := (outSpatialSize H pads.1.1 pads.1.2 s.fh s.stride).toNat
  let outW := (outSpatialSize W pads.2.1 pads.2.2 s.fw s.stride).toNat
  let acc : Mat := convGradToCol s.fh s.fw s.stride s.padding B W grad
  let s1 :=
    if s.trainable then
      let gradWeight : Tensor4 := fun f c di dj =>
        ∑ q ∈ Finset.range (outH * outW * B),
          acc f q * s.X_col (c * (s.fh * s.fw) + di * s.fw + dj) q
      let gradWout : Vec := fun f =>
        ∑ q ∈ Finset.range (outH * outW * B), acc f q
      { s with
          weight_ := updW s.weight_ gradWeight
          weight_out := updWout s.weight_out gradWout }
    else s
  let accCol : Mat := fun r q =>
    ∑ f ∈ Finset.range s.no_of_filters, s.W_col f r * acc f q
  (s1, colToImage init B chans H W s.fh s.fw s.stride s.padding accCol)

/-- The number of in-bounds cells of the 3×3 same-padding window anchored
at output position `(i, j)` of a 4×4 input: the window reads padded rows
`i..i+2`, i.e. original rows `i+di-1`, which are in bounds iff
`1 ≤ i+di ≤ 4` (and likewise for columns). -/
def windowCellCount (i j : ℕ) : ℤ :=
  ((((Finset.range 3).filter fun di => 1 ≤ i + di ∧ i + di ≤ 4).card : ℤ) *
    (((Finset.range 3).filter fun dj => 1 ≤ j + dj ∧ j + dj ≤ 4).card : ℤ))

/-- The mutable state of a `Dense` layer (layers.py:503-573): the weight
matrix of extent `(input_dim, units)`, the bias row `weight_out` of extent
`(1, units)` (modelled by its single row), and the `input_layer` cached by
`forward_pass` for the paired `backward_pass`. -/
structure DenseState where
  units : ℕ
  trainable : Bool
  weight : Mat
  weight_out : Vec
  input_layer : Mat

/-- `Dense.forward_pass` (layers.py:543-548):
`X.dot(self.weight) + self.weight_out` on a batch of extent
`(B, inDim)`, caching `input_layer`. -/
def denseForward (s : DenseState) (inDim : ℕ) (X : Mat) :
    DenseState × Mat :=
  ({ s with input_layer := X },
    fun b u => (∑ k ∈ Finset.range inDim, X b k * s.weight k u) +
      s.weight_out u)

/-- `Dense.backward_pass` (layers.py:557-573).  `weight_ = self.weight` is
captured first; when trainable the parameters are replaced through the
injected optimizer update functions; the returned gradient is
`accumulated_grad.dot(weight_.T)` — the captured pre-update weight. -/
def denseBackward (updW : Mat → Mat → Mat) (updWout : Vec → Vec → Vec)
    (s : DenseState) (B : ℕ) (grad : Mat) : DenseState × Mat :=
  let weight_ := s.weight
  let s1 :=
    if s.trainable then
      let weightGrad : Mat := fun k u =>
        ∑ b ∈ Finset.range B, s.input_layer b k * grad b u
      let weightOutGrad : Vec := fun u => ∑ b ∈ Finset.range B, grad b u
      { s with
          weight := updW s.weight weightGrad
          weight_out := updWout s.weight_out weightOutGrad }
    else s
  (s1, fun b k => ∑ u ∈ Finset.range s.units, grad b u * weight_ k u)

/-- `Flatten.forward_pass` (layers.py:489-494):
`X.reshape((X.shape[0], -1))` on an input of extent `(B, C, H, W)`, the
row-major flat index being `(c * H + i) * W + j`. -/
def flattenForward (H W : ℕ) (X : Tensor4) : Mat :=
  fun b q => X b (q / (H * W)) (q % (H * W) / W) (q % W)

/-- `Flatten.backward_pass` (layers.py:496-500): reshape back to the
cached `previous_shape` `(B, C, H, W)`. -/
def flattenBackward (H W : ℕ) (g : Mat) : Tensor4 :=
  fun b c i j => g b ((c * H + i) * W + j)

/-- `Reshape.forward_pass` (layers.py:732-737):
`X.reshape((X.shape[0],) + self.shape)` for a target `shape = (C, H, W)`. -/
def reshapeForward (H W : ℕ) (X : Mat) : Tensor4 :=
  fun b c i j => X b ((c * H + i) * W + j)

/-- `Reshape.backward_pass` (layers.py:739-743): reshape back to the
cached `previous_shape` `(B, N)`. -/
def reshapeBackward (H W : ℕ) (g : Tensor4) : Mat :=
  fun b q => g b (q / (H * W)) (q % (H * W) / W) (q % W)

/-- One element of the Python `padding` argument of `ConstantPadding2D` /
`ZeroPadding2D`: either a plain integer or a `(before, after)` tuple. -/
inductive PadSpec where
  | int : ℕ → PadSpec
  | pair : ℕ → ℕ → PadSpec
deriving DecidableEq

/-- `ConstantPadding2D._set_padding` (layers.py:601-609).  Two independent
`if not isinstance(..., tuple)` statements; crucially the second one
rebuilds the attribute from the ORIGINAL `padding` parameter, so for
`(int h, int w)` the first assignment `((h, h), w)` is overwritten by
`(h, (w, w))`, leaving the height entry a bare integer. -/
def setPadding (p0 p1 : PadSpec) : PadSpec × PadSpec :=
  let r1 :=
    match p0 with
    | .int h => (PadSpec.pair h h, p1)
    | .pair _ _ => (p0, p1)
  match p1 with
  | .int w => (p0, PadSpec.pair w w)
  | .pair _ _ => r1

/-- `ZeroPadding2D.__init__` (layers.py:661-668): runs
`ConstantPadding2D.__init__` (hence `_set_padding`), then overwrites
`self.padding` again — `if isinstance(padding[0], int)` pairs the height
entry with the ORIGINAL width entry, leaving the width entry a bare
integer for `(int h, int w)`. -/
def zeroPaddingInit (p0 p1 : PadSpec) : PadSpec × PadSpec :=
  let s := setPadding p0 p1
  match p0 with
  | .int h => (PadSpec.pair h h, p1)
  | .pair _ _ =>
    match p1 with
    | .int w => (p0, PadSpec.pair w w)
    | .pair _ _ => s

/-- The padded array produced by
`np.pad(X, ((0,0),(0,0),(a,b),(c,d)), mode='constant', constant_values=v)`
for an input of extent `(B, C, H, W)`: positions inside the original
extent read the input shifted by `(a, c)`, the border reads `v`. -/
def cpPad (a b c d : ℕ) (v : ℤ) (H W : ℕ) (X : Tensor4) : Tensor4 :=
  fun bt ch i j =>
    if a ≤ i ∧ i < H + a ∧ c ≤ j ∧ j < W + c then
      X bt ch (i - a) (j - c)
    else v

/-- `ConstantPadding2D.forward_pass` (layers.py:611-622), shared by
`ZeroPadding2D`.  `np.pad` requires every per-axis entry of `pad_width` to
have the same (before, after) shape; a stored padding that mixes a bare
integer with a tuple is a ragged `pad_width` and raises, modelled by
`none`. -/
def cpForward (padding : PadSpec × PadSpec) (v : ℤ) (H W : ℕ)
    (X : Tensor4) : Option Tensor4 :=
  match padding with
  | (.pair a b, .pair c d) => some (cpPad a b c d v H W X)
  | _ => none

/-- `ConstantPadding2D.backward_pass` (layers.py:624-634): slices the
padding border back off using `pad_top = padding[0][0]`,
`pad_left = padding[1][0]` and the layer's `input_shape` `(C, H, W)`. -/
def cpBackward (a c H W : ℕ) (g : Tensor4) : Tensor4 :=
  fun bt ch i j => g bt ch (i + a) (j + c)

/-- `UpSampling2D.forward_pass` (layers.py:690-697):
`X.repeat(size[0], axis=2).repeat(size[1], axis=3)`. -/
def upForward (s0 s1 : ℕ) (X : Tensor4) : Tensor4 :=
  fun b c i j => X b c (i / s0) (j / s1)

/-- `UpSampling2D.backward_pass` (layers.py:699-704):
`accumulated_grad[:, :, ::size[0], ::size[1]]`. -/
def upBackward (s0 s1 : ℕ) (g : Tensor4) : Tensor4 :=
  fun b c i j => g b c (i * s0) (j * s1)

/-- A rank-2 numpy array over `ℚ`, for the layers whose arithmetic
divides (dropout scaling, batch normalization). -/
abbrev QMat := ℕ → ℕ → ℚ

/-- The mutable state of a `DropOut` layer (layers.py:333-374):
the drop probability `p` and the cached boolean `_mask`
(`None` until a training-mode forward pass stores one). -/
structure DropState where
  p : ℚ
  mask : Option (ℕ → ℕ → Bool)

/-- `DropOut.forward_pass` (layers.py:352-362).  `u` models the
`np.random.uniform(size=X.shape)` draw.  In training mode the fresh mask
`u > p` is cached and multiplies the input; in inference mode the state —
including any previously cached mask — is left untouched and the input is
scaled by `1 - p`. -/
def dropForward (s : DropState) (training : Bool) (u : QMat) (X : QMat) :
    DropState × QMat :=
  if training then
    let m : ℕ → ℕ → Bool := fun i j => decide (s.p < u i j)
    ({ s with mask := some m },
      fun i j => X i j * (if m i j then 1 else 0))
  else
    (s, fun i j => X i j * (1 - s.p))

/-- `DropOut.backward_pass` (layers.py:364-368):
`accumulated_grad * self._mask`.  When `_mask` is still `None` (no
training-mode forward ever ran) the multiplication raises a `TypeError`,
modelled by `none`; otherwise the cached — possibly stale — mask is
applied silently. -/
def dropBackward (s : DropState) (grad : QMat) : Option QMat :=
  match s.mask with
  | none => none
  | some m => some (fun i j => grad i j * (if m i j then 1 else 0))

/-- The mutable state of a `BatchNormalization` layer
(layers.py:377-439): momentum, trainable flag, the parameters
`gamma`/`beta` (one scalar per feature), and the running mean/variance
pair, `None` until the first forward pass establishes it. -/
structure BNState where
  momentum : ℚ
  trainable : Bool
  gamma : ℕ → ℚ
  beta : ℕ → ℚ
  running : Option ((ℕ → ℚ) × (ℕ → ℚ))

/-- `BatchNormalization.forward_pass` (layers.py:413-439) on a batch of
extent `(B, features)`.  `sqrtFn` models `np.sqrt`; every theorem below
quantifies over it, so nothing depends on its interpretation.  If the
running statistics are `None` they are first seeded with the batch
statistics; in training mode (of a trainable layer) the batch statistics
normalize and the running averages are updated with factor `momentum`;
otherwise the stored running statistics normalize.  `eps = 0.01` as in
the source.  Output: `gamma * X_normalized + beta`. -/
def bnForward (sqrtFn : ℚ → ℚ) (s : BNState) (training : Bool) (B : ℕ)
    (X : QMat) : BNState × QMat :=
  let batchMean : ℕ → ℚ := fun j => (∑ i ∈ Finset.range B, X i j) / B
  let batchVar : ℕ → ℚ := fun j =>
    (∑ i ∈ Finset.range B, (X i j - batchMean j) ^ 2) / B
  let rm0 : ℕ → ℚ :=
    match s.running with
    | none => batchMean
    | some mv => mv.1
  let rv0 : ℕ → ℚ :=
    match s.running with
    | none => batchVar
    | some mv => mv.2
  if training && s.trainable then
    let rm1 : ℕ → ℚ := fun j =>
      s.momentum * rm0 j + (1 - s.momentum) * batchMean j
    let rv1 : ℕ → ℚ := fun j =>
      s.momentum * rv0 j + (1 - s.momentum) * batchVar j
    ({ s with running := some (rm1, rv1) },
      fun i j => s.gamma j *
        ((X i j - batchMean j) * (1 / sqrtFn (batchVar j + 1 / 100))) +
        s.beta j)
  else
    ({ s with running := some (rm0, rv0) },
      fun i j => s.gamma j *
        ((X i j - rm0 j) * (1 / sqrtFn (rv0 j + 1 / 100))) +
        s.beta j)

/-- The possible activation-function objects of the registry
`activation_functions` (layers.py:753-764). -/
inductive ActFn where
  | relu | sigmoid | selu | softplus | leakyRelu | elu | tanh | softmax
deriving DecidableEq

/-- The registry dict `activation_functions` (layers.py:753-764), as the
lookup `dict.get`: note the ReLU entry is keyed `'ReLu'`, with a capital
R and L. -/
def activation_functions (name : String) : Option ActFn :=
  if name = "ReLu" then some .relu
  else if name = "sigmoid" then some .sigmoid
  else if name = "selu" then some .selu
  else if name = "softplus" then some .softplus
  else if name = "leaky_relu" then some .leakyRelu
  else if name = "elu" then some .elu
  else if name = "tanh" then some .tanh
  else if name = "softmax" then some .softmax
  else none

/-- `Activation.__init__` (layers.py:299-302):
`activation_functions.get(name)()`.  For a name missing from the registry
`.get` returns `None` and the call `None()` raises a `TypeError` at
construction time, modelled by `none`; for a present name the activation
object is constructed. -/
def activationInit (name : String) : Option ActFn :=
  activation_functions name

/-- `limit = 1 / math.sqrt(np.prod(self.filter_shape))` of
`ConvolutionTwoD.init_weights` (layers.py:189-191).  Note the source
reads `channels = self.input_shape[0]` (layers.py:188) but does NOT
include it under the square root. -/
noncomputable def convInitLimit (fh fw : ℕ) : ℝ :=
  1 / Real.sqrt (fh * fw)

/-- The limit the spec prescribes for `init_weights`, stated from the
spec's words for comparison with `convInitLimit`:
`limit = 1/sqrt(filter_height * filter_width * input_channels)`. -/
noncomputable def specConvInitLimit (fh fw chans : ℕ) : ℝ :=
  1 / Real.sqrt (fh * fw * chans)

/-- The distribution parameters bound by `ConvolutionTwoD.init_weights`
(layers.py:183-201): every weight is drawn
`np.random.uniform(-limit, limit, size=(F, chans, fh, fw))` — modelled by
the draw interval `[lo, hi]` — and the bias is
`np.zeros((no_of_filters, 1))`. -/
structure ConvInitData where
  lo : ℝ
  hi : ℝ
  biasShape : ℕ × ℕ
  biasVal : ℕ → ℕ → ℝ

/-- `ConvolutionTwoD.init_weights` (layers.py:183-201). -/
noncomputable def convInitWeights (F chans fh fw : ℕ) : ConvInitData :=
  { lo := -convInitLimit fh fw
    hi := convInitLimit fh fw
    biasShape := (F, 1)
    biasVal := fun _ _ => 0 }

/-- The layer state of the spec's concrete convolution scenario:
`ConvolutionTwoD(no_of_filters=2, filter_shape=(3, 3), stride=1,
padding=True)` with all-ones weights and zero bias; the cache fields
start empty (they are overwritten by `forward_pass`). -/
def convScenarioState : ConvState :=
  { no_of_filters := 2
    fh := 3
    fw := 3
    stride := 1
    padding := true
    trainable := true
    weight_ := fun _ _ _ _ => 1
    weight_out := fun _ => 0
    input_layer := fun _ _ _ _ => 0
    inputShape := (0, 0, 0, 0)
    X_col := fun _ _ => 0
    W_col := fun _ _ => 0 }

/-- The scenario's forward pass on the `(1, 1, 4, 4)` all-ones input. -/
def convScenarioOut : Tensor4 :=
  (convForward convScenarioState 1 1 4 4 (fun _ _ _ _ => 1)).2

/-!
Helper lemmas, followed by one theorem per claim (with counterexample and
witness theorems where the claim's status requires them).
-/

/-- Python `int(x / s)` on an exact rational quotient of an integer by a
positive integer is `Int.tdiv`. -/
theorem pyInt_intCast_div_natCast {a : ℤ} {s : ℕ} (hs : 1 ≤ s) :
    pyInt ((a : ℚ) / (s : ℚ)) = a.tdiv s := by
  have hs0 : (0 : ℚ) < (s : ℚ) := by exact_mod_cast hs
  rcases le_or_lt 0 a with ha | ha
  · have hq : (0 : ℚ) ≤ (a : ℚ) / s := by positivity
    rw [pyInt, if_pos hq, Rat.floor_intCast_div_natCast]
    exact (Int.tdiv_eq_ediv ha (by positivity)).symm
  · have haq : (a : ℚ) < 0 := by exact_mod_cast ha
    have hq : ¬(0 : ℚ) ≤ (a : ℚ) / s := by
      push_neg
      exact div_neg_of_neg_of_pos haq hs0
    rw [pyInt, if_neg hq]
    have hceil : ⌈(a : ℚ) / s⌉ = -⌊((-a : ℤ) : ℚ) / s⌋ := by
      rw [← Int.ceil_neg]
      congr 1
      push_cast
      ring
    rw [hceil, Rat.floor_intCast_div_natCast]
    have hneg : a.tdiv s = -((-a).tdiv s) := by
      rw [Int.neg_tdiv, neg_neg]
    rw [hneg, Int.tdiv_eq_ediv (by omega) (by positivity)]

/-- Faithfulness of `outSpatialSize` to the source's
`int((in + sum(pad) - f) / stride + 1)`. -/
theorem outSpatialSize_eq_pyInt {inSize p0 p1 f stride : ℕ}
    (hs : 1 ≤ stride) :
    outSpatialSize inSize p0 p1 f stride
      = pyInt (((inSize : ℚ) + p0 + p1 - f) / stride + 1) := by
  have hs0 : (stride : ℚ) ≠ 0 := Nat.cast_ne_zero.mpr (by omega)
  have hq : ((inSize : ℚ) + p0 + p1 - f) / stride + 1
      = ((((inSize : ℤ) + p0 + p1 - f + stride) : ℤ) : ℚ) / (stride : ℚ) := by
    push_cast
    field_simp
  rw [hq, pyInt_intCast_div_natCast hs, outSpatialSize]

/-- When the filter fits in the padded input and the stride is positive,
the output size is the (silently truncating) natural division
`(in + sum(pad) - f) / stride + 1`. -/
theorem outSpatialSize_of_le {inSize p0 p1 f stride : ℕ}
    (hf : f ≤ inSize + p0 + p1) (hs : 1 ≤ stride) :
    outSpatialSize inSize p0 p1 f stride
      = ((inSize + p0 + p1 - f) / stride : ℕ) + 1 := by
  have hD : ((inSize : ℤ) + p0 + p1 - f + stride)
      = ((inSize + p0 + p1 - f : ℕ) : ℤ) + 1 * (stride : ℕ) := by
    omega
  rw [outSpatialSize, hD,
    Int.tdiv_eq_ediv (by positivity) (by positivity),
    Int.add_mul_ediv_right _ _ (by omega),
    Int.natCast_div]


/-- C1: evidence for the uninitialized-buffer bug in
`reshape_col_to_image`.  Configuration: batch 1, 1 channel, 1×1 image of
value 7, filter `(1, 1)`, stride 1, no padding — `stride ≥ filter
extent`, so the claim (and the spec's round-trip property) demands that
`image_to_columns` followed by `columns_to_image` with no intervening
multiply reproduce the original image.  Because the source accumulates
into an `np.empty` buffer, the result is (arbitrary buffer contents) +
(accumulated image): when the buffer happens to hold 1 the code returns
8 ≠ 7; the claimed behaviour is recovered exactly when the buffer is
zeroed (`np.zeros`, as the accumulation description intends). -/
theorem C1_roundtrip_reads_uninitialized_buffer :
    colToImage (fun _ _ _ _ => 1) 1 1 1 1 1 1 1 false
      (imageToCol 1 1 1 1 1 1 1 false (fun _ _ _ _ => 7)) 0 0 0 0 = 8
  ∧ (8 : ℤ) ≠ 7
  ∧ colToImage (fun _ _ _ _ => 0) 1 1 1 1 1 1 1 false
      (imageToCol 1 1 1 1 1 1 1 false (fun _ _ _ _ => 7)) 0 0 0 0 = 7 := by
  decide

/-- C2 counterexample: for filter shape `(1, 1)` and 4 input channels the
source draws weights from `[-1, 1]` (`limit = 1/sqrt(1·1) = 1`), not from
the claimed `[-1/2, 1/2]` (`1/sqrt(1·1·4) = 1/2`): the channel count is
absent from the source's `limit`. -/
theorem C2_limit_ignores_channels_counterexample :
    (convInitWeights 2 4 1 1).hi ≠ specConvInitLimit 1 1 4 := by
  have h1 : (convInitWeights 2 4 1 1).hi = 1 := by
    show convInitLimit 1 1 = 1
    rw [convInitLimit]
    norm_num
  have h2 : specConvInitLimit 1 1 4 = 1 / 2 := by
    rw [specConvInitLimit]
    rw [show ((1 : ℕ) : ℝ) * ((1 : ℕ) : ℝ) * ((4 : ℕ) : ℝ) = (2 : ℝ) ^ 2 by
      norm_num]
    rw [Real.sqrt_sq (by norm_num)]
  rw [h1, h2]
  norm_num

/-- C2 amended: `init_weights` draws every weight uniformly from
`[-limit, limit]` with `limit = 1/sqrt(filter_height · filter_width)` —
the input-channel count does NOT enter the bound (the whole
initialization is independent of it) — and initializes the bias to zero
with exactly one scalar per output filter (a `(no_of_filters, 1)`
array). -/
theorem C2_init_weights_amended (F chans chans2 fh fw : ℕ) :
    (convInitWeights F chans fh fw).hi = 1 / Real.sqrt (fh * fw)
  ∧ (convInitWeights F chans fh fw).lo
      = -((convInitWeights F chans fh fw).hi)
  ∧ (convInitWeights F chans fh fw).biasShape = (F, 1)
  ∧ (∀ i j, (convInitWeights F chans fh fw).biasVal i j = 0)
  ∧ convInitWeights F chans fh fw = convInitWeights F chans2 fh fw :=
  ⟨rfl, rfl, rfl, fun _ _ => rfl, rfl⟩

/-- C3: the concrete scenario
`ConvolutionTwoD(no_of_filters=2, filter_shape=(3,3), stride=1,
padding=True)` on a `(1, 1, 4, 4)` all-ones input with all-ones weights
and zero bias: `output_shape` resolves to `(2, 4, 4)` (hence, batch
first, the output extent is `(1, 2, 4, 4)`), every output position holds
the number of in-bounds cells of its 3×3 window, the four interior
positions hold `9`, the corners `4` and the remaining border positions
`6`, identically in both filters. -/
theorem C3_conv_same_padding_scenario :
    convOutputShape 2 3 3 1 4 4 true = (2, 4, 4)
  ∧ (∀ f < 2, ∀ i < 4, ∀ j < 4,
      convScenarioOut 0 f i j = windowCellCount i j)
  ∧ (∀ f < 2,
      convScenarioOut 0 f 1 1 = 9 ∧ convScenarioOut 0 f 1 2 = 9 ∧
      convScenarioOut 0 f 2 1 = 9 ∧ convScenarioOut 0 f 2 2 = 9)
  ∧ (∀ f < 2,
      convScenarioOut 0 f 0 0 = 4 ∧ convScenarioOut 0 f 0 3 = 4 ∧
      convScenarioOut 0 f 3 0 = 4 ∧ convScenarioOut 0 f 3 3 = 4)
  ∧ (∀ f < 2,
      convScenarioOut 0 f 0 1 = 6 ∧ convScenarioOut 0 f 0 2 = 6 ∧
      convScenarioOut 0 f 1 0 = 6 ∧ convScenarioOut 0 f 2 0 = 6 ∧
      convScenarioOut 0 f 1 3 = 6 ∧ convScenarioOut 0 f 2 3 = 6 ∧
      convScenarioOut 0 f 3 1 = 6 ∧ convScenarioOut 0 f 3 2 = 6) := by
  decide

/-- C10: constructing the padding layers with a plain integer pair
`(h, w)`.  `ConstantPadding2D._set_padding` rebuilds the attribute from
the original parameter in its second `if`, leaving `(h, (w, w))`;
`ZeroPadding2D.__init__` then overwrites with `((h, h), w)` — in each
case one axis entry stays a bare integer, so `forward_pass` (`np.pad`
with a ragged `pad_width`) raises on every rank-4 input instead of
padding symmetrically; the fully-tuple form `((h0, h1), (w0, w1))` is
stored unchanged and its `forward_pass` succeeds. -/
theorem C10_int_padding_left_ragged (h w : ℕ) :
    setPadding (.int h) (.int w) = (.int h, .pair w w)
  ∧ zeroPaddingInit (.int h) (.int w) = (.pair h h, .int w)
  ∧ (∀ (v : ℤ) (H W : ℕ) (X : Tensor4),
      cpForward (setPadding (.int h) (.int w)) v H W X = none
      ∧ cpForward (zeroPaddingInit (.int h) (.int w)) v H W X = none)
  ∧ (∀ h0 h1 w0 w1 : ℕ,
      setPadding (.pair h0 h1) (.pair w0 w1)
          = (.pair h0 h1, .pair w0 w1)
      ∧ zeroPaddingInit (.pair h0 h1) (.pair w0 w1)
          = (.pair h0 h1, .pair w0 w1)
      ∧ ∀ (v : ℤ) (H W : ℕ) (X : Tensor4),
          (cpForward (setPadding (.pair h0 h1) (.pair w0 w1))
            v H W X).isSome) :=
  ⟨rfl, rfl, fun _ _ _ _ => ⟨rfl, rfl⟩,
    fun _ _ _ _ => ⟨rfl, rfl, fun _ _ _ _ => rfl⟩⟩

/-- C4: for both parameterized layers the gradient returned to the
previous layer is computed from the values cached at the paired
`forward_pass`, never from post-update parameters.  For
`ConvolutionTwoD`, after a forward pass the backward pass returns
`columns_to_image(W_col.T · grad_col)` with the `W_col` that was
flattened from the weights AT FORWARD TIME (`s0.weight_`), and the
returned gradient is identical for any two optimizer update functions —
even though the returned state does carry the updated parameters.  For
`Dense`, the returned gradient is `grad · W.T` with the weight matrix as
it was before the update performed inside the same `backward_pass` call,
again independently of the optimizer. -/
theorem C4_backward_uses_forward_cached_weights
    (s0 : ConvState) (B chans H W : ℕ) (X grad init : Tensor4)
    (u1 u1' : Tensor4 → Tensor4 → Tensor4) (u2 u2' : Vec → Vec → Vec)
    (ds : DenseState) (g : Mat) (Bd : ℕ)
    (v1 v1' : Mat → Mat → Mat) (v2 v2' : Vec → Vec → Vec) :
    ((convBackward init u1 u2 (convForward s0 B chans H W X).1 grad).2
      = colToImage init B chans H W s0.fh s0.fw s0.stride s0.padding
          (fun r q => ∑ f ∈ Finset.range s0.no_of_filters,
            convReshapeW s0.fh s0.fw s0.weight_ f r *
              convGradToCol s0.fh s0.fw s0.stride s0.padding B W grad f q))
  ∧ ((convBackward init u1 u2 (convForward s0 B chans H W X).1 grad).2
      = (convBackward init u1' u2'
          (convForward s0 B chans H W X).1 grad).2)
  ∧ ((denseBackward v1 v2 ds Bd g).2
      = fun b k => ∑ u ∈ Finset.range ds.units, g b u * ds.weight k u)
  ∧ ((denseBackward v1 v2 ds Bd g).2 = (denseBackward v1' v2' ds Bd g).2)
  ∧ ((denseBackward v1 v2 ds Bd g).1.weight
      = if ds.trainable then
          v1 ds.weight (fun k u =>
            ∑ b ∈ Finset.range Bd, ds.input_layer b k * g b u)
        else ds.weight) := by
  refine ⟨rfl, rfl, rfl, rfl, ?_⟩
  by_cases h : ds.trainable <;> simp [denseBackward, h]

/-- C5 counterexample: for `in_size = 4`, no padding, filter extent 3,
stride 2 the ratio `(4 + 0 - 3) / 2` is not an integer; the claim says
the configuration fails fast at shape-resolution time, but
`output_shape` / `get_img_cols_indices` simply return the truncated size
`int(5/2) = 1`, silently dropping the fractional part. -/
theorem C5_no_fail_fast_counterexample :
    ¬((2 : ℤ) ∣ ((4 : ℤ) + 0 + 0 - 3))
  ∧ outSpatialSize 4 0 0 3 2 = 1
  ∧ ((outSpatialSize 4 0 0 3 2 : ℤ) : ℚ)
      ≠ ((4 : ℚ) + 0 + 0 - 3) / 2 + 1 := by
  refine ⟨by decide, by decide, ?_⟩
  rw [show outSpatialSize 4 0 0 3 2 = 1 from by decide]
  norm_num

/-- C5 amended: a stride/padding mismatch is NOT detected: for every
configuration with positive stride and a filter fitting the padded
input, the output size resolves (without any error) to the silently
truncating natural division `(in + pads - f) / stride + 1`, and every
gather index produced by `get_img_cols_indices` for the truncated grid
stays strictly inside the padded image — so the forward pass silently
computes a smaller output instead of failing. -/
theorem C5_silent_truncation_amended
    (H W p0 p1 q0 q1 fh fw chans stride : ℕ)
    (hs : 1 ≤ stride) (hfh : 1 ≤ fh) (hfw : 1 ≤ fw)
    (hH : fh ≤ H + p0 + p1) (hW : fw ≤ W + q0 + q1) :
    outSpatialSize H p0 p1 fh stride
      = ((H + p0 + p1 - fh) / stride : ℕ) + 1
  ∧ ∀ r c : ℕ, r < chans * (fh * fw) →
      c < (outSpatialSize H p0 p1 fh stride).toNat *
          (outSpatialSize W q0 q1 fw stride).toNat →
      indK fh fw r < chans
      ∧ indI fh fw stride
          (outSpatialSize W q0 q1 fw stride).toNat r c < H + p0 + p1
      ∧ indJ fw stride
          (outSpatialSize W q0 q1 fw stride).toNat r c < W + q0 + q1 := by
  have hfhw : 0 < fh * fw := Nat.mul_pos hfh hfw
  have houtH : (outSpatialSize H p0 p1 fh stride).toNat
      = (H + p0 + p1 - fh) / stride + 1 := by
    rw [outSpatialSize_of_le hH hs]
    exact_mod_cast Int.toNat_natCast ((H + p0 + p1 - fh) / stride + 1)
  have houtW : (outSpatialSize W q0 q1 fw stride).toNat
      = (W + q0 + q1 - fw) / stride + 1 := by
    rw [outSpatialSize_of_le hW hs]
    exact_mod_cast Int.toNat_natCast ((W + q0 + q1 - fw) / stride + 1)
  refine ⟨outSpatialSize_of_le hH hs, ?_⟩
  intro r c hr hc
  rw [houtH, houtW] at hc
  rw [houtW]
  refine ⟨(Nat.div_lt_iff_lt_mul hfhw).mpr hr, ?_, ?_⟩
  · show r % (fh * fw) / fw +
        stride * (c / ((W + q0 + q1 - fw) / stride + 1)) < H + p0 + p1
    have h1 : r % (fh * fw) / fw < fh := by
      have hm : r % (fh * fw) < fh * fw := Nat.mod_lt _ hfhw
      exact (Nat.div_lt_iff_lt_mul hfw).mpr hm
    have hb2 : 0 < (W + q0 + q1 - fw) / stride + 1 := Nat.succ_pos _
    have h2 : c / ((W + q0 + q1 - fw) / stride + 1)
        < (H + p0 + p1 - fh) / stride + 1 :=
      (Nat.div_lt_iff_lt_mul hb2).mpr hc
    have h3 : stride * (c / ((W + q0 + q1 - fw) / stride + 1))
        ≤ stride * ((H + p0 + p1 - fh) / stride) :=
      Nat.mul_le_mul_left _ (Nat.lt_succ_iff.mp h2)
    have h4 : stride * ((H + p0 + p1 - fh) / stride)
        ≤ H + p0 + p1 - fh := by
      rw [Nat.mul_comm]
      exact Nat.div_mul_le_self _ _
    calc r % (fh * fw) / fw +
          stride * (c / ((W + q0 + q1 - fw) / stride + 1))
        < fh + stride * (c / ((W + q0 + q1 - fw) / stride + 1)) :=
          Nat.add_lt_add_right h1 _
      _ ≤ fh + (H + p0 + p1 - fh) := Nat.add_le_add_left (h3.trans h4) _
      _ = H + p0 + p1 := by omega
  · show r % fw +
        stride * (c % ((W + q0 + q1 - fw) / stride + 1)) < W + q0 + q1
    have h1 : r % fw < fw := Nat.mod_lt _ hfw
    have hb2 : 0 < (W + q0 + q1 - fw) / stride + 1 := Nat.succ_pos _
    have h2 : c % ((W + q0 + q1 - fw) / stride + 1)
        < (W + q0 + q1 - fw) / stride + 1 := Nat.mod_lt _ hb2
    have h3 : stride * (c % ((W + q0 + q1 - fw) / stride + 1))
        ≤ stride * ((W + q0 + q1 - fw) / stride) :=
      Nat.mul_le_mul_left _ (Nat.lt_succ_iff.mp h2)
    have h4 : stride * ((W + q0 + q1 - fw) / stride)
        ≤ W + q0 + q1 - fw := by
      rw [Nat.mul_comm]
      exact Nat.div_mul_le_self _ _
    calc r % fw + stride * (c % ((W + q0 + q1 - fw) / stride + 1))
        < fw + stride * (c % ((W + q0 + q1 - fw) / stride + 1)) :=
          Nat.add_lt_add_right h1 _
      _ ≤ fw + (W + q0 + q1 - fw) := Nat.add_le_add_left (h3.trans h4) _
      _ = W + q0 + q1 := by omega

/-- C5 witness: the amended theorem applied to the concrete mismatched
configuration `in_size 4×4`, no padding, filter `3×3`, stride 2, one
channel, at gather-index entry `(r, c) = (5, 0)`. -/
theorem C5_silent_truncation_witness :
    outSpatialSize 4 0 0 3 2 = ((4 + 0 + 0 - 3) / 2 : ℕ) + 1
  ∧ (indK 3 3 5 < 1
      ∧ indI 3 3 2 (outSpatialSize 4 0 0 3 2).toNat 5 0 < 4 + 0 + 0
      ∧ indJ 3 2 (outSpatialSize 4 0 0 3 2).toNat 5 0 < 4 + 0 + 0) := by
  have h := C5_silent_truncation_amended 4 4 0 0 0 0 3 3 1 2
    (by decide) (by decide) (by decide) (by decide) (by decide)
  exact ⟨h.1, h.2 5 0 (by decide) (by decide)⟩

/-- C6: in inference mode (`training = False`) with established running
statistics, `BatchNormalization.forward_pass` normalizes each sample
using only the stored running mean and variance, so the output row of a
sample is the same whatever batch (content or size) it appears in, for
every interpretation of `np.sqrt`. -/
theorem C6_bn_inference_batch_independent
    (sqrtFn : ℚ → ℚ) (s : BNState) (B B2 : ℕ) (X X2 : QMat)
    (i i2 : ℕ) (rm rv : ℕ → ℚ)
    (hrun : s.running = some (rm, rv))
    (hrow : ∀ j, X i j = X2 i2 j) :
    ∀ j, (bnForward sqrtFn s false B X).2 i j
      = (bnForward sqrtFn s false B2 X2).2 i2 j := by
  intro j
  simp only [bnForward, hrun, Bool.false_and, Bool.false_eq_true,
    if_false, hrow j]

/-- C6 witness: a sample row of value 5 is normalized identically
whether it is alone in a batch or sharing a batch with a 0-valued
sample, given running statistics `(1, 4)`, `gamma = 2`, `beta = 3`. -/
theorem C6_bn_inference_witness :
    (bnForward id
      { momentum := 99 / 100, trainable := true, gamma := fun _ => 2,
        beta := fun _ => 3, running := some (fun _ => 1, fun _ => 4) }
      false 1 (fun _ _ => 5)).2 0 0
    = (bnForward id
        { momentum := 99 / 100, trainable := true, gamma := fun _ => 2,
          beta := fun _ => 3, running := some (fun _ => 1, fun _ => 4) }
        false 2 (fun i _ => if i = 1 then 5 else 0)).2 1 0 :=
  C6_bn_inference_batch_independent id
    { momentum := 99 / 100, trainable := true, gamma := fun _ => 2,
      beta := fun _ => 3, running := some (fun _ => 1, fun _ => 4) }
    1 2 (fun _ _ => 5) (fun i _ => if i = 1 then 5 else 0) 0 1
    (fun _ => 1) (fun _ => 4) rfl (fun _ => rfl) 0

/-- C7: for the parameter-free layers the backward pass is the exact
geometric inverse of the paired forward pass.  Flatten reshapes back to
the cached pre-forward `(B, C, H, W)` shape; Reshape reshapes back to the
cached flat shape; the padding layers (`ConstantPadding2D`, and
`ZeroPadding2D` which inherits both passes) slice the padding border
back off; `UpSampling2D` stride-subsamples at the same integer factors
used forward.  Stated pointwise at every in-range index. -/
theorem C7_backward_inverts_forward
    (X : Tensor4) (G : Mat) (H W a b c d s0 s1 : ℕ) (v : ℤ)
    (bt ch i j q : ℕ)
    (hi : i < H) (hj : j < W) (hs0 : 0 < s0) (hs1 : 0 < s1) :
    flattenBackward H W (flattenForward H W X) bt ch i j = X bt ch i j
  ∧ reshapeBackward H W (reshapeForward H W G) bt q = G bt q
  ∧ cpBackward a c H W (cpPad a b c d v H W X) bt ch i j = X bt ch i j
  ∧ upBackward s0 s1 (upForward s0 s1 X) bt ch i j = X bt ch i j := by
  have hH0 : 0 < H := by omega
  have hW0 : 0 < W := by omega
  have hHW : 0 < H * W := Nat.mul_pos hH0 hW0
  refine ⟨?_, ?_, ?_, ?_⟩
  · show X bt (((ch * H + i) * W + j) / (H * W))
        (((ch * H + i) * W + j) % (H * W) / W)
        (((ch * H + i) * W + j) % W) = X bt ch i j
    have hlt : i * W + j < H * W := by
      calc i * W + j < i * W + W := by omega
        _ = (i + 1) * W := by ring
        _ ≤ H * W := Nat.mul_le_mul_right _ (by omega)
    have hkey1 : (ch * H + i) * W + j = H * W * ch + (i * W + j) := by ring
    have hkey2 : (ch * H + i) * W + j = ch * (H * W) + (i * W + j) := by
      ring
    have en1 : ((ch * H + i) * W + j) / (H * W) = ch := by
      rw [hkey1, Nat.mul_add_div hHW, Nat.div_eq_of_lt hlt]
      omega
    have en2 : ((ch * H + i) * W + j) % (H * W) = i * W + j := by
      rw [hkey1, Nat.mul_add_mod]
      exact Nat.mod_eq_of_lt hlt
    have en3 : ((ch * H + i) * W + j) % W = j := by
      rw [show (ch * H + i) * W + j = W * (ch * H + i) + j from by ring,
        Nat.mul_add_mod]
      exact Nat.mod_eq_of_lt hj
    have en4 : (i * W + j) / W = i := by
      rw [show i * W + j = W * i + j from by ring, Nat.mul_add_div hW0,
        Nat.div_eq_of_lt hj]
      omega
    rw [en1, en2, en3, en4]
  · show G bt ((q / (H * W) * H + q % (H * W) / W) * W + q % W) = G bt q
    have e5 : (q / (H * W) * H + q % (H * W) / W) * W + q % W = q := by
      have hmm : q % W = q % (H * W) % W :=
        (Nat.mod_mod_of_dvd q ⟨H, Nat.mul_comm H W⟩).symm
      calc (q / (H * W) * H + q % (H * W) / W) * W + q % W
          = q / (H * W) * (H * W) +
            (q % (H * W) / W * W + q % (H * W) % W) := by
            rw [hmm]; ring
        _ = q / (H * W) * (H * W) + q % (H * W) := by
            rw [Nat.div_add_mod' (q % (H * W)) W]
        _ = q := Nat.div_add_mod' q (H * W)
    rw [e5]
  · show (if a ≤ i + a ∧ i + a < H + a ∧ c ≤ j + c ∧ j + c < W + c then
        X bt ch (i + a - a) (j + c - c) else v) = X bt ch i j
    rw [if_pos ⟨Nat.le_add_left _ _, by omega, Nat.le_add_left _ _,
      by omega⟩, Nat.add_sub_cancel, Nat.add_sub_cancel]
  · show X bt ch (i * s0 / s0) (j * s1 / s1) = X bt ch i j
    rw [Nat.mul_div_cancel _ hs0, Nat.mul_div_cancel _ hs1]

/-- C7 witness: the round trips evaluated on the concrete input
`X bt ch i j = bt + 2 ch + 3 i + 5 j` (and `G bt q = bt + 7 q`) with
`H = W = 2`, padding `((1, 1), (1, 1))` of value 9, upsampling factors
`(2, 2)`, at index `(0, 1, 1, 1)` and flat index `q = 3`. -/
theorem C7_backward_inverts_forward_witness :
    flattenBackward 2 2
        (flattenForward 2 2
          (fun bt ch i j => (bt : ℤ) + 2 * ch + 3 * i + 5 * j))
        0 1 1 1
      = (fun bt ch i j => (bt : ℤ) + 2 * ch + 3 * i + 5 * j) 0 1 1 1
  ∧ reshapeBackward 2 2
        (reshapeForward 2 2 (fun bt q => (bt : ℤ) + 7 * q)) 0 3
      = (fun bt q => (bt : ℤ) + 7 * q) 0 3
  ∧ cpBackward 1 1 2 2
        (cpPad 1 1 1 1 9 2 2
          (fun bt ch i j => (bt : ℤ) + 2 * ch + 3 * i + 5 * j))
        0 1 1 1
      = (fun bt ch i j => (bt : ℤ) + 2 * ch + 3 * i + 5 * j) 0 1 1 1
  ∧ upBackward 2 2
        (upForward 2 2
          (fun bt ch i j => (bt : ℤ) + 2 * ch + 3 * i + 5 * j))
        0 1 1 1
      = (fun bt ch i j => (bt : ℤ) + 2 * ch + 3 * i + 5 * j) 0 1 1 1 :=
  C7_backward_inverts_forward
    (fun bt ch i j => (bt : ℤ) + 2 * ch + 3 * i + 5 * j)
    (fun bt q => (bt : ℤ) + 7 * q) 2 2 1 1 1 1 2 2 9 0 1 1 1 3
    (by decide) (by decide) (by decide) (by decide)

/-- C8 counterexample: the registry key for the rectified linear unit is
`'ReLu'`, not `'relu'`; constructing `Activation('relu')` hits the
missing-key path (`dict.get` returns `None`, `None()` raises), so the
claimed name `relu` is NOT constructible. -/
theorem C8_relu_lowercase_counterexample :
    activationInit "relu" = none := by decide

/-- C8 amended: an Activation layer can be constructed for each of the
registry names `ReLu` (capitalized, not `relu`), `sigmoid`, `selu`,
`softplus`, `leaky_relu`, `elu`, `tanh` and `softmax`, and constructing
one with any name outside this registry fails at construction time. -/
theorem C8_registry_amended :
    ((activationInit "ReLu").isSome
      ∧ (activationInit "sigmoid").isSome
      ∧ (activationInit "selu").isSome
      ∧ (activationInit "softplus").isSome
      ∧ (activationInit "leaky_relu").isSome
      ∧ (activationInit "elu").isSome
      ∧ (activationInit "tanh").isSome
      ∧ (activationInit "softmax").isSome)
  ∧ ∀ name : String,
      name ∉ (["ReLu", "sigmoid", "selu", "softplus", "leaky_relu",
        "elu", "tanh", "softmax"] : List String) →
      activationInit name = none := by
  refine ⟨by decide, ?_⟩
  intro name hname
  simp only [List.mem_cons, List.not_mem_nil, or_false, not_or] at hname
  obtain ⟨h1, h2, h3, h4, h5, h6, h7, h8⟩ := hname
  simp [activationInit, activation_functions, h1, h2, h3, h4, h5, h6,
    h7, h8]

/-- C8 witness: the amended theorem applied to the out-of-registry name
`swish`. -/
theorem C8_registry_witness : activationInit "swish" = none :=
  C8_registry_amended.2 "swish" (by decide)

/-- C9 counterexample: run `forward_pass(training=True)` (caching a
mask), then `forward_pass(training=False)`; the claim says the following
`backward_pass` fails because the most recent forward cached no mask —
but the inference-mode forward leaves the old mask in place, so
`backward_pass` succeeds, silently multiplying the gradient by the stale
mask from the earlier training-mode forward. -/
theorem C9_stale_mask_counterexample :
    (dropBackward
      ((dropForward
        ((dropForward ⟨1 / 2, none⟩ true (fun _ _ => 1)
            (fun _ _ => 1)).1)
        false (fun _ _ => 0) (fun _ _ => 1)).1)
      (fun _ _ => 1)).isSome = true := rfl

/-- C9 amended: `DropOut.backward_pass` fails (the cached mask is absent)
exactly when no training-mode forward pass has ever run: on a fresh
layer backward raises.  An inference-mode forward leaves the state —
including any previously cached mask — completely untouched, so a
backward call after it does not fail but silently applies the stale
mask of the last training-mode forward. -/
theorem C9_dropout_backward_amended
    (p : ℚ) (s : DropState) (u X g : QMat) :
    dropBackward ⟨p, none⟩ g = none
  ∧ (dropForward s false u X).1 = s
  ∧ ∀ m, s.mask = some m →
      dropBackward (dropForward s false u X).1 g
        = some (fun i j => g i j * (if m i j then 1 else 0)) := by
  refine ⟨rfl, rfl, ?_⟩
  intro m hm
  simp [dropForward, dropBackward, hm]

/-- C9 witness: the amended theorem applied to a state carrying the mask
that keeps even-sum positions, probability `1/2`, and concrete uniform
draw, input and gradient. -/
theorem C9_dropout_backward_witness :
    dropBackward ⟨1 / 2, none⟩ (fun _ _ => 3) = none
  ∧ (dropForward ⟨1 / 2, some fun i j => (i + j) % 2 = 0⟩ false
      (fun _ _ => 1) (fun _ _ => 2)).1
      = ⟨1 / 2, some fun i j => (i + j) % 2 = 0⟩
  ∧ dropBackward
      (dropForward ⟨1 / 2, some fun i j => (i + j) % 2 = 0⟩ false
        (fun _ _ => 1) (fun _ _ => 2)).1 (fun _ _ => 3)
      = some (fun i j => (fun _ _ => (3 : ℚ)) i j *
          (if (fun i j => decide ((i + j) % 2 = 0)) i j then 1 else 0)) :=
  ⟨(C9_dropout_backward_amended (1 / 2)
      ⟨1 / 2, some fun i j => (i + j) % 2 = 0⟩
      (fun _ _ => 1) (fun _ _ => 2) (fun _ _ => 3)).1,
   (C9_dropout_backward_amended (1 / 2)
      ⟨1 / 2, some fun i j => (i + j) % 2 = 0⟩
      (fun _ _ => 1) (fun _ _ => 2) (fun _ _ => 3)).2.1,
   (C9_dropout_backward_amended (1 / 2)
      ⟨1 / 2, some fun i j => (i + j) % 2 = 0⟩
      (fun _ _ => 1) (fun _ _ => 2) (fun _ _ => 3)).2.2
      (fun i j => decide ((i + j) % 2 = 0)) rfl⟩

end MLSpec
